import Mathlib

/- Shallow embedding of the Sublime Text goto-documentation plugin
   (src/gotodocumentation.py).  The editor buffer is modelled as a list of
   characters; buffer offsets are integers, because the plugin freely forms
   negative offsets which the editor API clips to the buffer bounds. -/

namespace GotoDoc

/-- Model of view.substr(sublime.Region(x, y)): a Region normalises its two
bounds with min and max, and substr clips them to the buffer and returns the
characters lying in between. -/
def viewSubstr (text : List Char) (x y : Int) : String :=
  let b := max 0 (min x y)
  let e := min (text.length : Int) (max x y)
  String.mk ((text.drop b.toNat).take (e - b).toNat)

/-- ASCII whitespace: the character class matched by the regex escape \s on
byte strings without the unicode flag. -/
def isPyWs (c : Char) : Bool :=
  c == ' ' || c == '\t' || c == '\n' || c == '\x0b' || c == '\x0c' || c == '\r'

/-- Model of str.strip(): remove leading and trailing whitespace. -/
def pyStrip (s : String) : String :=
  String.mk (((s.data.dropWhile isPyWs).reverse.dropWhile isPyWs).reverse)

/-- Model of s.rpartition(".")[2]: the part of s after the last dot, or the
whole of s when s has no dot. -/
def rpartitionDot (s : String) : String :=
  String.mk (s.data.foldl (fun acc c => if c = '.' then [] else acc ++ [c]) [])

/-- Model of re.match with pattern \s: re.match anchors at the start of the
string, so it succeeds exactly when the first character is whitespace. -/
def reMatchWs (s : String) : Bool :=
  match s.data with
  | [] => false
  | c :: _ => isPyWs c

/-- The observable effect produced by one invocation of the command.
arityError marks the paths on which the source would call a handler with the
wrong number of arguments, raising a TypeError. -/
inductive DocAction where
  | openUrl : String → DocAction
  | runCommand : List String → DocAction
  | statusMessage : String → DocAction
  | arityError : DocAction
  | noAction : DocAction
deriving DecidableEq

/-- Model of the module-level open_url helper. -/
def open_url (url : String) : DocAction := DocAction.openUrl url

/-- Model of GotoDocumentationCommand.unsupported. -/
def unsupported (keyword scope : String) : DocAction :=
  DocAction.statusMessage ("This scope is not supported: " ++ rpartitionDot scope)

/-- Model of GotoDocumentationCommand.php_doc. -/
def php_doc (keyword scope : String) : DocAction :=
  open_url ("http://php.net/" ++ keyword)

/-- Model of GotoDocumentationCommand.rails_doc. -/
def rails_doc (keyword scope : String) : DocAction :=
  open_url ("http://api.rubyonrails.org/?q=" ++ keyword)

/-- Model of GotoDocumentationCommand.controller_doc. -/
def controller_doc (keyword scope : String) : DocAction :=
  open_url ("http://api.rubyonrails.org/?q=" ++ keyword)

/-- Model of GotoDocumentationCommand.ruby_doc. -/
def ruby_doc (keyword scope : String) : DocAction :=
  open_url ("http://api.rubyonrails.org/?q=" ++ keyword)

/-- Model of GotoDocumentationCommand.js_doc. -/
def js_doc (keyword scope : String) : DocAction :=
  open_url ("https://developer.mozilla.org/en-US/search?q=" ++ keyword)

/-- Model of the class-body alias coffee_doc = js_doc. -/
def coffee_doc : String → String → DocAction := js_doc

/-- Model of GotoDocumentationCommand.python_doc: when re.match(\s, keyword)
finds no match the local command runs, otherwise the search page opens. -/
def python_doc (keyword scope : String) : DocAction :=
  if reMatchWs keyword = false then DocAction.runCommand ["pydoc", keyword]
  else open_url ("http://docs.python.org/search.html?q=" ++ keyword)

/-- Model of GotoDocumentationCommand.clojure_doc. -/
def clojure_doc (keyword scope : String) : DocAction :=
  open_url ("http://clojuredocs.org/search?x=0&y=0&q=" ++ keyword)

/-- Model of GotoDocumentationCommand.go_doc. -/
def go_doc (keyword scope : String) : DocAction :=
  open_url ("http://golang.org/search?q=" ++ keyword)

/-- Model of GotoDocumentationCommand.smarty_doc. -/
def smarty_doc (keyword scope : String) : DocAction :=
  open_url ("http://www.smarty.net/" ++ keyword)

/-- Model of GotoDocumentationCommand.jquery_doc: note the single argument. -/
def jquery_doc (keyword : String) : DocAction :=
  open_url ("http://api.jquery.com/" ++ keyword)

/-- Model of GotoDocumentationCommand.dojo_doc: note the single argument. -/
def dojo_doc (keyword : String) : DocAction :=
  open_url ("http://dojotoolkit.org/api/dojo." ++ keyword)

/-- The backward scan inside detect_js_library.  For i in range(1,
max_backreference) the source examines view.substr(Region(p - i, p - (i+1)))
where p is the first coordinate of the pre-word region; it breaks at the
first "(" found, setting lib to jquery when the character just before that
"(" is "$".  fuel is the number of iterations remaining. -/
def jqScan (text : List Char) (p : Int) : Int → Nat → Option String → Option String
  | _, 0, lib => lib
  | i, fuel + 1, lib =>
    if viewSubstr text (p - i) (p - (i + 1)) = "(" then
      if viewSubstr text (p - i - 1) (p - (i + 1) - 1) = "$" then some "jquery" else lib
    else jqScan text p (i + 1) fuel lib

/-- Number of loop iterations, one per character position examined, that the
backward scan of detect_js_library performs; instrumented copy of jqScan. -/
def jqScanSteps (text : List Char) (p : Int) : Int → Nat → Nat
  | _, 0 => 0
  | i, fuel + 1 =>
    if viewSubstr text (p - i) (p - (i + 1)) = "(" then 1
    else 1 + jqScanSteps text p (i + 1) fuel

/-- Model of GotoDocumentationCommand.detect_js_library.  The word under the
cursor starts at offset a, so pre_string is view.substr(Region(a - 2, a - 1)),
the single character two positions before the word start.  The dojo check
reads Region(a - 5, a - 1), the four characters that end at pre_string.  The
None initialisation of lib and the final return False both map to none. -/
def detect_js_library (text : List Char) (a : Int) (max_backreference : Nat) : Option String :=
  let pre_string := viewSubstr text (a - 2) (a - 1)
  let lib1 : Option String := if pre_string = "$" then some "jquery" else none
  let lib2 : Option String :=
    if pre_string = "o" then
      if viewSubstr text (a - 5) (a - 1) = "dojo" then some "dojo" else lib1
    else lib1
  if pre_string = ")" then jqScan text (a - 2) 1 (max_backreference - 1) lib2 else lib2

/-- Model of getattr(self, extracted_scope + "_doc", self.unsupported) called
with the two arguments (keyword, scope).  jquery_doc and dojo_doc accept only
one argument, so those two hits would raise a TypeError in the source; they
map to arityError. -/
def callScopeHandler (key keyword scope : String) : DocAction :=
  if key = "php" then php_doc keyword scope
  else if key = "rails" then rails_doc keyword scope
  else if key = "controller" then controller_doc keyword scope
  else if key = "ruby" then ruby_doc keyword scope
  else if key = "js" then js_doc keyword scope
  else if key = "coffee" then coffee_doc keyword scope
  else if key = "python" then python_doc keyword scope
  else if key = "clojure" then clojure_doc keyword scope
  else if key = "go" then go_doc keyword scope
  else if key = "smarty" then smarty_doc keyword scope
  else if key = "jquery" then DocAction.arityError
  else if key = "dojo" then DocAction.arityError
  else unsupported keyword scope

/-- Model of getattr(self, js_lib + "_doc", self.unsupported) called with the
single argument keyword: unsupported needs two arguments, so any miss would
raise a TypeError in the source and maps to arityError. -/
def callLibHandler (lib keyword : String) : DocAction :=
  if lib = "jquery" then jquery_doc keyword
  else if lib = "dojo" then dojo_doc keyword
  else DocAction.arityError

/-- The keys for which a handler method named key + "_doc" exists on the
command class. -/
def registered_doc_keys : List String :=
  ["php", "rails", "controller", "ruby", "js", "coffee",
   "python", "clojure", "go", "smarty", "jquery", "dojo"]

/-- Model of GotoDocumentationCommand.run for one selection whose word region
is [a, b) (the source loops over all selections and treats each one exactly
this way).  rawScope is the raw view.scope_name string, which the source
strips before splitting; the word region is the value of view.word(region)
used both for the keyword and, inside detect_js_library, for pre_string. -/
def run (text : List Char) (a b : Int) (rawScope : String) : DocAction :=
  if a = b then DocAction.noAction
  else
    let scope := pyStrip rawScope
    let extracted_scope := rpartitionDot scope
    let keyword := viewSubstr text a b
    if extracted_scope ++ "_doc" ≠ "js_doc" then
      callScopeHandler extracted_scope keyword scope
    else
      match detect_js_library text a 32 with
      | none => js_doc keyword scope
      | some js_lib => callLibHandler js_lib keyword

/-- Strict UTF-8 decoding of a byte sequence to unicode code points, as
performed by the Python 2 runtime when the utf-8 codec decodes a byte string:
overlong forms, stray continuation bytes, truncated sequences and code points
above 0x10FFFF are rejected; surrogate code points are accepted, as that
runtime accepts them.  fuel bounds the recursion and is instantiated with the
length of the input. -/
def utf8DecodeFuel : Nat → List Nat → Option (List Nat)
  | _, [] => some []
  | 0, _ :: _ => none
  | fuel + 1, b :: rest =>
    if b < 0x80 then
      (utf8DecodeFuel fuel rest).map (fun cps => b :: cps)
    else if b < 0xC2 then none
    else if b < 0xE0 then
      match rest with
      | [] => none
      | b2 :: rest2 =>
        if 0x80 ≤ b2 ∧ b2 < 0xC0 then
          (utf8DecodeFuel fuel rest2).map
            (fun cps => ((b - 0xC0) * 0x40 + (b2 - 0x80)) :: cps)
        else none
    else if b < 0xF0 then
      match rest with
      | b2 :: b3 :: rest3 =>
        if 0x80 ≤ b2 ∧ b2 < 0xC0 ∧ 0x80 ≤ b3 ∧ b3 < 0xC0 ∧ (b = 0xE0 → 0xA0 ≤ b2) then
          (utf8DecodeFuel fuel rest3).map
            (fun cps => ((b - 0xE0) * 0x1000 + (b2 - 0x80) * 0x40 + (b3 - 0x80)) :: cps)
        else none
      | _ => none
    else if b < 0xF5 then
      match rest with
      | b2 :: b3 :: b4 :: rest4 =>
        if 0x80 ≤ b2 ∧ b2 < 0xC0 ∧ 0x80 ≤ b3 ∧ b3 < 0xC0 ∧ 0x80 ≤ b4 ∧ b4 < 0xC0 ∧
            (b = 0xF0 → 0x90 ≤ b2) ∧ (b = 0xF4 → b2 < 0x90) then
          (utf8DecodeFuel fuel rest4).map
            (fun cps =>
              ((b - 0xF0) * 0x40000 + (b2 - 0x80) * 0x1000 +
                (b3 - 0x80) * 0x40 + (b4 - 0x80)) :: cps)
        else none
      | _ => none
    else none

/-- text.decode with the utf-8 codec: some on success, none when the byte
sequence raises UnicodeDecodeError. -/
def utf8Decode (bytes : List Nat) : Option (List Nat) :=
  utf8DecodeFuel bytes.length bytes

/-- Model of the module-level _make_text_safeish helper: try the utf-8
decode and, on UnicodeDecodeError, retry with the fallback encoding.  The
fallback codec is abstracted as a function that may itself fail (in the
source a failing fallback decode would raise out of the except block). -/
def make_text_safeish (text : List Nat)
    (fallbackDecode : List Nat → Option (List Nat)) : Option (List Nat) :=
  match utf8Decode text with
  | some unitext => some unitext
  | none => fallbackDecode text

end GotoDoc

open GotoDoc

/-- A Region normalises its bounds, so substr is symmetric in them. -/
lemma viewSubstr_swap (text : List Char) (x y : Int) :
    viewSubstr text x y = viewSubstr text y x := by
  unfold viewSubstr
  rw [min_comm x y, max_comm x y]

/-- Appending the fixed suffix _doc to a handler key is injective. -/
lemma append_doc_cancel (s t : String) (h : s ++ "_doc" = t ++ "_doc") : s = t := by
  have h2 := congrArg String.data h
  rw [String.data_append, String.data_append] at h2
  exact String.ext (List.append_cancel_right h2)

/-- The fold behind rpartitionDot only accumulates over dot-free input. -/
lemma rpartFold_no_dot (l : List Char) (h : '.' ∉ l) :
    ∀ acc : List Char,
      l.foldl (fun acc c => if c = '.' then [] else acc ++ [c]) acc = acc ++ l := by
  induction l with
  | nil => intro acc; simp
  | cons c t ih =>
    intro acc
    have hc : ¬(c = '.') := by
      intro hc
      exact h (hc ▸ List.mem_cons_self c t)
    have ht : '.' ∉ t := fun m => h (List.mem_cons_of_mem _ m)
    simp only [List.foldl_cons, if_neg hc, ih ht]
    simp

/-- On a dot-free string, rpartition(".")[2] is the whole string. -/
lemma rpartitionDot_no_dot (s : String) (h : '.' ∉ s.data) : rpartitionDot s = s := by
  unfold rpartitionDot
  rw [rpartFold_no_dot s.data h []]
  simp

/-- Folding the rpartition step across a lone dot resets the accumulator. -/
lemma rpartFold_dot (acc : List Char) :
    List.foldl (fun acc c => if c = '.' then [] else acc ++ [c]) acc ['.'] = [] := by
  simp

/-- After the last dot, rpartition(".")[2] returns the final segment. -/
lemma rpartitionDot_last (s t : String) (h : '.' ∉ t.data) :
    rpartitionDot (s ++ "." ++ t) = t := by
  unfold rpartitionDot
  rw [String.data_append, String.data_append, List.foldl_append, List.foldl_append]
  have hdot : ("." : String).data = ['.'] := rfl
  rw [hdot, rpartFold_dot, rpartFold_no_dot t.data h []]
  simp

/-- When no iteration of the backward scan sees an opening parenthesis, the
scan leaves lib unchanged. -/
lemma jqScan_exhaust (text : List Char) (p : Int) :
    ∀ (fuel : Nat) (i : Int) (lib : Option String),
      (∀ j : Int, i ≤ j → j < i + fuel → viewSubstr text (p - j) (p - (j + 1)) ≠ "(") →
      jqScan text p i fuel lib = lib := by
  intro fuel
  induction fuel with
  | zero => intro i lib _; rfl
  | succ n ih =>
    intro i lib h
    have hi : viewSubstr text (p - i) (p - (i + 1)) ≠ "(" := h i le_rfl (by omega)
    simp only [jqScan, if_neg hi]
    exact ih (i + 1) lib (fun j hj1 hj2 => h j (by omega) (by omega))

/-- The backward scan stops at the first opening parenthesis it meets: the
result is decided by the single character before that parenthesis. -/
lemma jqScan_found (text : List Char) (p : Int) :
    ∀ (fuel : Nat) (i j : Int) (lib : Option String),
      i ≤ j → j < i + fuel →
      viewSubstr text (p - j) (p - (j + 1)) = "(" →
      (∀ k : Int, i ≤ k → k < j → viewSubstr text (p - k) (p - (k + 1)) ≠ "(") →
      jqScan text p i fuel lib =
        (if viewSubstr text (p - j - 1) (p - (j + 1) - 1) = "$" then some "jquery" else lib) := by
  intro fuel
  induction fuel with
  | zero => intro i j lib h1 h2 _ _; exact absurd h2 (by omega)
  | succ n ih =>
    intro i j lib hij hlt hfound hfirst
    by_cases heq : i = j
    · subst heq
      simp only [jqScan, if_pos hfound]
    · have hlt2 : i < j := lt_of_le_of_ne hij heq
      have hi : viewSubstr text (p - i) (p - (i + 1)) ≠ "(" := hfirst i le_rfl hlt2
      simp only [jqScan, if_neg hi]
      exact ih (i + 1) j lib (by omega) (by omega) hfound
        (fun k hk1 hk2 => hfirst k (by omega) hk2)

/-- The backward scan performs at most fuel iterations. -/
lemma jqScanSteps_le (text : List Char) (p : Int) :
    ∀ (fuel : Nat) (i : Int), jqScanSteps text p i fuel ≤ fuel := by
  intro fuel
  induction fuel with
  | zero => intro i; exact le_rfl
  | succ n ih =>
    intro i
    simp only [jqScanSteps]
    by_cases h : viewSubstr text (p - i) (p - (i + 1)) = "("
    · rw [if_pos h]; omega
    · rw [if_neg h]
      have := ih (i + 1)
      omega

/-- When the character two before the word is a closing parenthesis, the
detector reduces to the backward scan started with lib = none. -/
lemma detect_paren (text : List Char) (a : Int) (mb : Nat)
    (h : viewSubstr text (a - 2) (a - 1) = ")") :
    detect_js_library text a mb = jqScan text (a - 2) 1 (mb - 1) none := by
  unfold detect_js_library
  rw [h]
  simp

/-- C4: the Scope Resolver returns a dot-free context label whole, and for a
label of the form a.b.c it returns the rightmost segment c verbatim. -/
theorem C4_scope_resolver :
    (∀ s : String, s ≠ "" → '.' ∉ s.data → rpartitionDot s = s) ∧
    (∀ a b c : String, '.' ∉ a.data → '.' ∉ b.data → '.' ∉ c.data →
      rpartitionDot (a ++ "." ++ b ++ "." ++ c) = c) := by
  constructor
  · intro s _ h
    exact rpartitionDot_no_dot s h
  · intro a b c _ _ hc
    exact rpartitionDot_last (a ++ "." ++ b) c hc

/-- Witness for C4 at the concrete labels abc and a.b.c. -/
theorem C4_scope_resolver_witness :
    rpartitionDot "abc" = "abc" ∧ rpartitionDot "a.b.c" = "c" := by
  constructor
  · exact C4_scope_resolver.1 "abc" (by decide) (by decide)
  · exact C4_scope_resolver.2 "a" "b" "c" (by decide) (by decide) (by decide)

/-- C6: a dispatch key with no registered handler always lands in the
unsupported handler, which only reports a status message that contains the
key; no URL is opened and no command is run. -/
theorem C6_unsupported_scope (text : List Char) (a b : Int) (rawScope : String)
    (hab : a ≠ b)
    (hkey : rpartitionDot (pyStrip rawScope) ∉ registered_doc_keys) :
    run text a b rawScope =
      DocAction.statusMessage
        ("This scope is not supported: " ++ rpartitionDot (pyStrip rawScope)) ∧
    (rpartitionDot (pyStrip rawScope)).data <:+:
      ("This scope is not supported: " ++ rpartitionDot (pyStrip rawScope)).data ∧
    (∀ u, run text a b rawScope ≠ DocAction.openUrl u) ∧
    (∀ c, run text a b rawScope ≠ DocAction.runCommand c) := by
  simp only [registered_doc_keys, List.mem_cons, List.mem_singleton, not_or] at hkey
  obtain ⟨hphp, hrails, hcontroller, hruby, hjs, hcoffee,
    hpython, hclojure, hgo, hsmarty, hjquery, hdojo, _⟩ := hkey
  have hjsdoc : rpartitionDot (pyStrip rawScope) ++ "_doc" ≠ "js_doc" := by
    intro hEq
    exact hjs (append_doc_cancel _ "js" hEq)
  have hmain : run text a b rawScope =
      DocAction.statusMessage
        ("This scope is not supported: " ++ rpartitionDot (pyStrip rawScope)) := by
    simp only [run, if_neg hab, if_pos hjsdoc, callScopeHandler,
      if_neg hphp, if_neg hrails, if_neg hcontroller, if_neg hruby, if_neg hjs,
      if_neg hcoffee, if_neg hpython, if_neg hclojure, if_neg hgo, if_neg hsmarty,
      if_neg hjquery, if_neg hdojo, unsupported]
  refine ⟨hmain, ?_, ?_, ?_⟩
  · have hsuffix : (rpartitionDot (pyStrip rawScope)).data <:+
        ("This scope is not supported: " ++ rpartitionDot (pyStrip rawScope)).data := by
      rw [String.data_append]
      exact List.suffix_append _ _
    exact hsuffix.isInfix
  · intro u; rw [hmain]; simp
  · intro c; rw [hmain]; simp

/-- Witness for C6 at the context label source.unknownlang. -/
theorem C6_unsupported_scope_witness :
    rpartitionDot (pyStrip "source.unknownlang") = "unknownlang" ∧
    run ['x'] 0 1 "source.unknownlang" =
      DocAction.statusMessage "This scope is not supported: unknownlang" := by
  constructor
  · decide
  · exact (C6_unsupported_scope ['x'] 0 1 "source.unknownlang"
      (by decide) (by decide)).1

/-- C7: output that fails the utf-8 decode is recovered by retrying with the
fallback codec, whose decoding is returned; output that is valid utf-8 is
returned from the utf-8 decode and the fallback codec is never consulted. -/
theorem C7_decode_fallback (text : List Nat)
    (fb fb2 : List Nat → Option (List Nat)) (u : List Nat) :
    (utf8Decode text = none → make_text_safeish text fb = fb text) ∧
    (utf8Decode text = some u →
      make_text_safeish text fb = some u ∧
      make_text_safeish text fb = make_text_safeish text fb2) := by
  unfold make_text_safeish
  constructor
  · intro h; rw [h]
  · intro h; rw [h]; exact ⟨rfl, rfl⟩

/-- Witness for C7: the byte 0xFF is not valid utf-8 and goes through the
fallback codec; the bytes 0xC3 0xA9 decode to code point 0xE9 under utf-8,
independently of the fallback codec supplied. -/
theorem C7_decode_fallback_witness :
    make_text_safeish [0xFF] (fun l => some l) = some [0xFF] ∧
    make_text_safeish [0xC3, 0xA9] (fun l => some l) = some [0xE9] ∧
    make_text_safeish [0xC3, 0xA9] (fun l => some l) =
      make_text_safeish [0xC3, 0xA9] (fun _ => none) := by
  refine ⟨?_, ?_, ?_⟩
  · exact (C7_decode_fallback [0xFF] (fun l => some l) (fun l => some l) []).1 (by decide)
  · exact ((C7_decode_fallback [0xC3, 0xA9] (fun l => some l)
      (fun l => some l) [0xE9]).2 (by decide)).1
  · exact ((C7_decode_fallback [0xC3, 0xA9] (fun l => some l)
      (fun _ => none) [0xE9]).2 (by decide)).2

/-- C8: a selection whose word region is empty produces no action at all: no
handler runs, no URL is opened, no command is run, no message is shown. -/
theorem C8_empty_word_region (text : List Char) (a : Int) (rawScope : String) :
    run text a a rawScope = DocAction.noAction ∧
    (∀ u, run text a a rawScope ≠ DocAction.openUrl u) ∧
    (∀ c, run text a a rawScope ≠ DocAction.runCommand c) ∧
    (∀ m, run text a a rawScope ≠ DocAction.statusMessage m) := by
  have hmain : run text a a rawScope = DocAction.noAction := by
    simp [run]
  refine ⟨hmain, ?_, ?_, ?_⟩
  · intro u; rw [hmain]; simp
  · intro c; rw [hmain]; simp
  · intro m; rw [hmain]; simp

/-- C1 counterexample: the token my func contains a whitespace character in
the middle, yet dispatch runs the local pydoc command instead of opening the
python search URL, because re.match with pattern \s only inspects the first
character of the token. -/
theorem C1_python_counterexample :
    run "my func".data 0 7 "text.python" = DocAction.runCommand ["pydoc", "my func"] ∧
    run "my func".data 0 7 "text.python" ≠
      DocAction.openUrl "http://docs.python.org/search.html?q=my func" := by
  constructor
  · decide
  · decide

/-- C1 as amended: for the python handler, a token whose first character is
not whitespace runs the local command pydoc with the token, even when the
token contains whitespace later; only a token whose first character is
whitespace opens the python search URL. -/
theorem C1_python_amended (text : List Char) (a b : Int) (rawScope : String)
    (hab : a ≠ b) (hkey : rpartitionDot (pyStrip rawScope) = "python") :
    (reMatchWs (viewSubstr text a b) = false →
      run text a b rawScope = DocAction.runCommand ["pydoc", viewSubstr text a b]) ∧
    (reMatchWs (viewSubstr text a b) = true →
      run text a b rawScope =
        DocAction.openUrl ("http://docs.python.org/search.html?q=" ++ viewSubstr text a b)) := by
  have hrun : run text a b rawScope =
      python_doc (viewSubstr text a b) (pyStrip rawScope) := by
    simp only [run, if_neg hab, hkey]
    rw [if_pos (by decide : ("python" ++ "_doc" : String) ≠ "js_doc")]
    simp [callScopeHandler]
  constructor
  · intro h
    rw [hrun]
    unfold python_doc
    rw [if_pos h]
  · intro h
    rw [hrun]
    unfold python_doc
    rw [if_neg (by rw [h]; exact fun hc => Bool.noConfusion hc)]
    rfl

/-- Witness for the amended C1 at the token my func: the first character m is
not whitespace, so the local command runs. -/
theorem C1_python_witness :
    reMatchWs (viewSubstr "my func".data 0 7) = false ∧
    run "my func".data 0 7 "text.python" =
      DocAction.runCommand ["pydoc", viewSubstr "my func".data 0 7] := by
  constructor
  · decide
  · exact (C1_python_amended "my func".data 0 7 "text.python"
      (by decide) (by decide)).1 (by decide)

/-- C2 counterexample: in the buffer x$foo with the word foo starting at
offset 2, the single character immediately preceding the token is the dollar
sign, yet the detector reports no library and dispatch opens the MDN search
URL, because the source inspects Region(a - 2, a - 1), the character two
positions before the word start. -/
theorem C2_jquery_short_counterexample :
    viewSubstr "x$foo".data 1 2 = "$" ∧
    detect_js_library "x$foo".data 2 32 = none ∧
    run "x$foo".data 2 5 "source.js" =
      DocAction.openUrl "https://developer.mozilla.org/en-US/search?q=foo" := by
  refine ⟨by decide, by decide, by decide⟩

/-- C2 as amended: rule 1 fires on the character two positions before the
token start (the position just before the separator that precedes the word,
as in the dollar-dot-method pattern): whenever that character is the dollar
sign, detection returns jquery, and dispatch of a js-scoped token opens the
jquery API URL rather than the MDN search URL. -/
theorem C2_jquery_short_amended (text : List Char) (a : Int)
    (h : viewSubstr text (a - 2) (a - 1) = "$") :
    (∀ mb : Nat, detect_js_library text a mb = some "jquery") ∧
    (∀ (b : Int) (rawScope : String), a ≠ b →
      rpartitionDot (pyStrip rawScope) = "js" →
      run text a b rawScope =
        DocAction.openUrl ("http://api.jquery.com/" ++ viewSubstr text a b)) := by
  have hd : ∀ mb : Nat, detect_js_library text a mb = some "jquery" := by
    intro mb
    unfold detect_js_library
    rw [h]
    simp
  refine ⟨hd, ?_⟩
  intro b rawScope hab hkey
  simp only [run, if_neg hab, hkey]
  rw [if_neg (by decide : ¬ ("js" ++ "_doc" : String) ≠ "js_doc")]
  rw [hd 32]
  simp [callLibHandler, jquery_doc, open_url]

/-- Witness for the amended C2 in the buffer with the dollar-dot-foo pattern:
the dollar sign sits two positions before the word foo, and dispatch opens
the jquery API URL. -/
theorem C2_jquery_short_witness :
    viewSubstr "$.foo".data 0 1 = "$" ∧
    run "$.foo".data 2 5 "source.js" =
      DocAction.openUrl ("http://api.jquery.com/" ++ viewSubstr "$.foo".data 2 5) := by
  constructor
  · decide
  · exact (C2_jquery_short_amended "$.foo".data 2 (by decide)).2 5 "source.js"
      (by decide) (by decide)

/-- C5 counterexample: in the buffer dojox with the word x starting at offset
4, the character immediately preceding the token is o and the four characters
ending at that position spell dojo, yet the detector reports no library,
because the source inspects the character two positions before the word. -/
theorem C5_dojo_counterexample :
    viewSubstr "dojox".data 3 4 = "o" ∧
    viewSubstr "dojox".data 0 4 = "dojo" ∧
    detect_js_library "dojox".data 4 32 = none := by
  refine ⟨by decide, by decide, by decide⟩

/-- C5 as amended: rule 2 fires on the character two positions before the
token start: when that character is o and the four characters ending at it
spell dojo, detection returns dojo. -/
theorem C5_dojo_amended (text : List Char) (a : Int) (mb : Nat)
    (h1 : viewSubstr text (a - 2) (a - 1) = "o")
    (h2 : viewSubstr text (a - 5) (a - 1) = "dojo") :
    detect_js_library text a mb = some "dojo" := by
  unfold detect_js_library
  rw [h1, h2]
  simp

/-- Witness for the amended C5 in the buffer dojo.byId with the word byId
starting at offset 5. -/
theorem C5_dojo_witness :
    viewSubstr "dojo.byId".data 3 4 = "o" ∧
    viewSubstr "dojo.byId".data 0 4 = "dojo" ∧
    detect_js_library "dojo.byId".data 5 32 = some "dojo" := by
  refine ⟨by decide, by decide, ?_⟩
  exact C5_dojo_amended "dojo.byId".data 5 32 (by decide) (by decide)

/-- C3 counterexample: with the preceding text $(selector) immediately before
the token (the word foo starts at offset 11, the closing parenthesis at
offset 10), the detector returns no library, because the source reads the
closing parenthesis from Region(a - 2, a - 1), two positions before the word
start, which here holds the letter r. -/
theorem C3_call_form_counterexample :
    viewSubstr "$(selector)foo".data 0 11 = "$(selector)" ∧
    detect_js_library "$(selector)foo".data 11 32 = none := by
  refine ⟨by decide, by decide⟩

/-- C3 as amended: the call form fires when the character two positions
before the token start is a closing parenthesis.  The scan then walks
backward over positions a - 4 down to a - 2 - max_backreference, bounded by
the window.  When the first opening parenthesis it meets sits at position g,
the detector returns jquery exactly when the character at g - 1 is a dollar
sign, and none otherwise; when the window holds no opening parenthesis the
detector returns none.  The preceding texts of the two scenarios therefore
need one separator character between the closing parenthesis and the token,
as in a dollar-call followed by a dot. -/
theorem C3_call_form_amended (text : List Char) (a : Int) (mb : Nat)
    (hpre : viewSubstr text (a - 2) (a - 1) = ")") :
    (∀ g : Int, a - 2 - mb ≤ g → g ≤ a - 4 →
      viewSubstr text g (g + 1) = "(" →
      (∀ k : Int, g < k → k ≤ a - 4 → viewSubstr text k (k + 1) ≠ "(") →
      ((viewSubstr text (g - 1) g = "$" → detect_js_library text a mb = some "jquery") ∧
       (viewSubstr text (g - 1) g ≠ "$" → detect_js_library text a mb = none))) ∧
    ((∀ k : Int, a - 2 - mb ≤ k → k ≤ a - 4 → viewSubstr text k (k + 1) ≠ "(") →
      detect_js_library text a mb = none) := by
  rw [detect_paren text a mb hpre]
  constructor
  · intro g hg1 hg2 hfound hfirst
    have hfound2 : viewSubstr text (a - 2 - (a - 3 - g)) (a - 2 - (a - 3 - g + 1)) = "(" := by
      rw [viewSubstr_swap]
      rw [(by ring : a - 2 - (a - 3 - g + 1) = g), (by ring : a - 2 - (a - 3 - g) = g + 1)]
      exact hfound
    have hfirst2 : ∀ k : Int, 1 ≤ k → k < a - 3 - g →
        viewSubstr text (a - 2 - k) (a - 2 - (k + 1)) ≠ "(" := by
      intro k hk1 hk2
      rw [viewSubstr_swap]
      rw [(by ring : a - 2 - (k + 1) = a - 3 - k), (by ring : a - 2 - k = a - 3 - k + 1)]
      exact hfirst (a - 3 - k) (by omega) (by omega)
    have hscan := jqScan_found text (a - 2) (mb - 1) 1 (a - 3 - g) none
      (by omega) (by omega) hfound2 hfirst2
    rw [(by ring : a - 2 - (a - 3 - g) - 1 = g),
      (by ring : a - 2 - (a - 3 - g + 1) - 1 = g - 1),
      viewSubstr_swap text g (g - 1)] at hscan
    constructor
    · intro hd
      rw [hscan, if_pos hd]
    · intro hd
      rw [hscan, if_neg hd]
  · intro hnone
    apply jqScan_exhaust
    intro j hj1 hj2
    rw [viewSubstr_swap]
    rw [(by ring : a - 2 - (j + 1) = a - 3 - j), (by ring : a - 2 - j = a - 3 - j + 1)]
    exact hnone (a - 3 - j) (by omega) (by omega)

/-- Witness for the amended C3: with preceding text $(selector). the detector
returns jquery, and with preceding text foo(selector). it returns none. -/
theorem C3_call_form_witness :
    detect_js_library "$(selector).foo".data 12 32 = some "jquery" ∧
    detect_js_library "foo(selector).bar".data 14 32 = none := by
  constructor
  · exact ((C3_call_form_amended "$(selector).foo".data 12 32 (by decide)).1
      1 (by decide) (by decide) (by decide)
      (by intro k hk1 hk2; interval_cases k <;> decide)).1 (by decide)
  · exact ((C3_call_form_amended "foo(selector).bar".data 14 32 (by decide)).1
      3 (by decide) (by decide) (by decide)
      (by intro k hk1 hk2; interval_cases k <;> decide)).2 (by decide)

/-- C9: the backward scan stops at the first opening parenthesis it meets;
when the character immediately before that parenthesis is not a dollar sign,
the detector reports no library, even though an earlier opening parenthesis
preceded by a dollar sign lies within the lookback window. -/
theorem C9_first_paren_wins (text : List Char) (a : Int) (mb : Nat) (g g2 : Int)
    (hpre : viewSubstr text (a - 2) (a - 1) = ")")
    (hg1 : a - 2 - mb ≤ g) (hg2 : g ≤ a - 4)
    (hfound : viewSubstr text g (g + 1) = "(")
    (hfirst : ∀ k : Int, g < k → k ≤ a - 4 → viewSubstr text k (k + 1) ≠ "(")
    (hnotdollar : viewSubstr text (g - 1) g ≠ "$")
    (hg2lt : g2 < g)
    (hg2found : viewSubstr text g2 (g2 + 1) = "(")
    (hg2dollar : viewSubstr text (g2 - 1) g2 = "$") :
    detect_js_library text a mb = none := by
  rw [detect_paren text a mb hpre]
  have hfound2 : viewSubstr text (a - 2 - (a - 3 - g)) (a - 2 - (a - 3 - g + 1)) = "(" := by
    rw [viewSubstr_swap]
    rw [(by ring : a - 2 - (a - 3 - g + 1) = g), (by ring : a - 2 - (a - 3 - g) = g + 1)]
    exact hfound
  have hfirst2 : ∀ k : Int, 1 ≤ k → k < a - 3 - g →
      viewSubstr text (a - 2 - k) (a - 2 - (k + 1)) ≠ "(" := by
    intro k hk1 hk2
    rw [viewSubstr_swap]
    rw [(by ring : a - 2 - (k + 1) = a - 3 - k), (by ring : a - 2 - k = a - 3 - k + 1)]
    exact hfirst (a - 3 - k) (by omega) (by omega)
  have hscan := jqScan_found text (a - 2) (mb - 1) 1 (a - 3 - g) none
    (by omega) (by omega) hfound2 hfirst2
  rw [(by ring : a - 2 - (a - 3 - g) - 1 = g),
    (by ring : a - 2 - (a - 3 - g + 1) - 1 = g - 1),
    viewSubstr_swap text g (g - 1)] at hscan
  rw [hscan, if_neg hnotdollar]

/-- Witness for C9: in the buffer with preceding text $(f(x)). the innermost
closing parenthesis leads the scan to the inner opening parenthesis, whose
preceding character f is not a dollar sign, so no library is reported even
though the buffer starts with a dollar-parenthesis pair. -/
theorem C9_first_paren_wins_witness :
    viewSubstr "$(f(x)).foo".data 0 1 = "$" ∧
    viewSubstr "$(f(x)).foo".data 1 2 = "(" ∧
    detect_js_library "$(f(x)).foo".data 8 32 = none := by
  refine ⟨by decide, by decide, ?_⟩
  exact C9_first_paren_wins "$(f(x)).foo".data 8 32 3 1
    (by decide) (by decide) (by decide) (by decide)
    (by intro k hk1 hk2; interval_cases k <;> decide)
    (by decide) (by decide) (by decide) (by decide)

/-- C10: the backward scan performs at most max_backreference - 1 iterations,
each examining one character position, hence at most 31 for the value 32
passed at the call site; the detector is total and yields a result on every
input. -/
theorem C10_scan_bounded (text : List Char) (p i a : Int) (mb : Nat) :
    jqScanSteps text p i (mb - 1) ≤ mb - 1 ∧
    jqScanSteps text p i (32 - 1) ≤ 31 ∧
    ∃ r : Option String, detect_js_library text a mb = r := by
  exact ⟨jqScanSteps_le text p (mb - 1) i, jqScanSteps_le text p (32 - 1) i, ⟨_, rfl⟩⟩
